import Mathlib

/-!
Verification of the deep-loop orchestrator (stop hooks and the deep-execute
task-queue skill) against its natural-language specification.

The JavaScript sources are shallowly embedded as pure Lean functions:
* the file system records (`state.json`, `test-results.json`, `git-results.json`,
  `agent.lock`, `claims.json`, `tasks.md`, transcript) become explicit values
  passed to the embedded functions;
* timestamps are naturals (milliseconds), `Date.now()` is a parameter `now`;
* the external collaborators (the `gh` CLI, git, the JSON codec of transcript
  lines) are oracles passed as function arguments;
* process exit codes become the type `Exit` (`exit 0` = `allow`,
  `exit 2` = `block`).
-/

/-- Result of an orchestrator invocation at the host interface:
`allow` is `process.exit(0)` (the worker may exit), `block` is
`process.exit(2)` (the worker is re-prompted). -/
inductive Exit where
  | allow
  | block
deriving DecidableEq, Repr

/-! ## String containment (used for the transcript scans and messages) -/

/-- Boolean prefix test on character lists. -/
def isPref : List Char → List Char → Bool
  | [], _ => true
  | _ :: _, [] => false
  | a :: as, b :: bs => a = b && isPref as bs

/-- Boolean substring test on character lists: does `n` occur inside `h`. -/
def listInf (n : List Char) : List Char → Bool
  | [] => n.isEmpty
  | c :: t => isPref n (c :: t) || listInf n t

/-- JavaScript `hay.includes(needle)`. -/
def strContains (hay needle : String) : Bool :=
  listInf needle.data hay.data

/-! ## The v2 stop hook agent lock (`stop-hook-v2.js`, `acquireLock` /
`releaseLock`)

`agent.lock` holds `agentId` and `acquiredAt`; the file contents are the
`Option LockRec` argument (`none` = file absent). -/

/-- `LOCK_TIMEOUT_MS = 5 * 60 * 1000` in `stop-hook-v2.js`. -/
def LOCK_TIMEOUT_MS : Nat := 5 * 60 * 1000

/-- Contents of `.deep/agent.lock`. -/
structure LockRec where
  agentId : String
  acquiredAt : Nat
deriving DecidableEq, Repr

/-- `acquireLock` from `stop-hook-v2.js`: if a lock file exists and its age is
strictly below `LOCK_TIMEOUT_MS` the attempt fails; otherwise (stale or
absent) the caller writes its own lock and succeeds. Returns
(acquired, new lock file contents). -/
def acquireLock (now : Nat) (pid : String) (lock : Option LockRec) :
    Bool × Option LockRec :=
  match lock with
  | some l =>
      if now - l.acquiredAt < LOCK_TIMEOUT_MS then
        (false, some l)
      else
        (true, some ⟨pid, now⟩)
  | none => (true, some ⟨pid, now⟩)

/-- `releaseLock` from `stop-hook-v2.js`: deletes the lock file only when the
caller is the recorded holder. -/
def releaseLock (pid : String) (lock : Option LockRec) : Option LockRec :=
  match lock with
  | some l => if l.agentId = pid then none else some l
  | none => none

/-! ## Interleaved claim attempts (for the at-most-one-claim property)

`acquireLock` performs a read (existence + age check) and then a separate
write (`fs.writeFileSync`); nothing serialises the two against another
process.  Each attempt is therefore split into its two file-system steps and
a scheduler interleaves two workers A and B over the shared lock file. -/

/-- Progress of one worker through `acquireLock`: not started, past the
check and about to write, or finished with a result. -/
inductive WPhase where
  | start
  | toWrite
  | done (acquired : Bool)
deriving DecidableEq, Repr

/-- One file-system step of `acquireLock` for a worker with identity `pid`
whose clock reads `now`. -/
def wStep (now : Nat) (pid : String) (ph : WPhase) (lock : Option LockRec) :
    WPhase × Option LockRec :=
  match ph with
  | .start =>
      match lock with
      | some l =>
          if now - l.acquiredAt < LOCK_TIMEOUT_MS then (.done false, some l)
          else (.toWrite, some l)
      | none => (.toWrite, none)
  | .toWrite => (.done true, some ⟨pid, now⟩)
  | .done b => (.done b, lock)

/-- Two workers A and B racing for the shared lock file. -/
structure RaceSys where
  lock : Option LockRec
  phA : WPhase
  phB : WPhase
deriving DecidableEq, Repr

/-- Run one step of the chosen worker (`true` = A, `false` = B). -/
def raceStep (nowA nowB : Nat) (pidA pidB : String) (s : RaceSys)
    (who : Bool) : RaceSys :=
  if who then
    let (ph, lk) := wStep nowA pidA s.phA s.lock
    { s with phA := ph, lock := lk }
  else
    let (ph, lk) := wStep nowB pidB s.phB s.lock
    { s with phB := ph, lock := lk }

/-- Run a whole schedule of interleaved steps. -/
def raceRun (nowA nowB : Nat) (pidA pidB : String) (s : RaceSys)
    (sched : List Bool) : RaceSys :=
  sched.foldl (raceStep nowA nowB pidA pidB) s

/-! ## Evidence records read by the completion verification
(`verifyTestResults` / `verifyGitResults` in `stop-hook-v2.js`) -/

/-- One category entry of `test-results.json` (`results[cat]`). -/
structure CatResult where
  ran : Bool
  passed : Bool
deriving DecidableEq, Repr

/-- Contents of `.deep/test-results.json`: one optional entry per category
plus the worker-declared `allPassed` flag. -/
structure TestResults where
  tests : Option CatResult
  types : Option CatResult
  lint : Option CatResult
  build : Option CatResult
  allPassed : Bool
deriving DecidableEq, Repr

/-- The per-category body of the `for (const cat of [...])` loop in
`verifyTestResults`: produces the entries it pushes onto `missing` and
`failed`. -/
def catCheck (name : String) (c : Option CatResult) :
    List String × List String :=
  match c with
  | none => ([name ++ ": no results"], [])
  | some r =>
      if r.ran = false then ([name ++ ": not run"], [])
      else if r.passed = false then ([], [name ++ ": failed"])
      else ([], [])

/-- Return value of `verifyTestResults`. -/
structure VerifyRes where
  valid : Bool
  missing : List String
  failed : List String
deriving DecidableEq, Repr

/-- `verifyTestResults` from `stop-hook-v2.js`.  `none` models a missing
`test-results.json`. -/
def verifyTestResults (tr : Option TestResults) : VerifyRes :=
  match tr with
  | none => ⟨false, ["test-results.json not found"], []⟩
  | some r =>
      let m := (catCheck "tests" r.tests).1 ++ (catCheck "types" r.types).1 ++
        (catCheck "lint" r.lint).1 ++ (catCheck "build" r.build).1
      let f0 := (catCheck "tests" r.tests).2 ++ (catCheck "types" r.types).2 ++
        (catCheck "lint" r.lint).2 ++ (catCheck "build" r.build).2
      let f :=
        if r.allPassed = false ∧ m = [] ∧ f0 = [] then ["allPassed is false"]
        else f0
      ⟨m.isEmpty && f.isEmpty, m, f⟩

/-- Contents of `.deep/git-results.json` as read by `verifyGitResults`.
The three `require*` flags model `enforcement.require* !== false`
(absent enforcement keys default to `true`). -/
structure GitResults where
  isGitRepo : Bool
  hasGhCli : Bool
  requirePR : Bool
  requireCIPass : Bool
  requireMerge : Bool
  prCreated : Bool
  prNumber : Option Nat
  ciChecked : Bool
  ciPassed : Bool
  merged : Bool
deriving DecidableEq, Repr

/-- Return value of `verifyGitResults`. -/
structure GitVerifyRes where
  valid : Bool
  skip : Bool
  missing : List String
  failed : List String
deriving DecidableEq, Repr

/-- `verifyGitResults` from `stop-hook-v2.js`. -/
def verifyGitResults (gr : Option GitResults) : GitVerifyRes :=
  match gr with
  | none => ⟨true, true, [], []⟩
  | some g =>
      if g.isGitRepo = false then ⟨true, true, [], []⟩
      else if g.hasGhCli = false then ⟨true, true, [], []⟩
      else
        let m1 := if g.requirePR ∧ g.prCreated = false then ["PR not created"] else []
        let mf :=
          if g.requireCIPass then
            if g.ciChecked = false then (["CI not checked"], ([] : List String))
            else if g.ciPassed = false then ([], ["CI failed"])
            else ([], [])
          else ([], [])
        let m3 := if g.requireMerge ∧ g.merged = false then ["PR not merged"] else []
        let m := m1 ++ mf.1 ++ m3
        ⟨m.isEmpty && mf.2.isEmpty, false, m, mf.2⟩

/-! ## Active CI polling (`waitForCI` in `stop-hook-v2.js`)

`gh pr checks` is an oracle `polls : Nat → PollResult` giving the outcome of
the k-th poll.  The source loops `while (Date.now() - startTime <
CI_MAX_WAIT_MS)` sleeping `CI_POLL_INTERVAL_MS` between polls; with the k-th
poll at elapsed time `k * CI_POLL_INTERVAL_MS` the guard holds exactly for
`k < pollBudget` (`pollBudget = 40`), so the loop is embedded as a countdown
of `pollBudget - k` remaining polls. -/

/-- `CI_POLL_INTERVAL_MS = 15 * 1000` (15 seconds). -/
def CI_POLL_INTERVAL_MS : Nat := 15000

/-- `CI_MAX_WAIT_MS = 10 * 60 * 1000` (10 minutes). -/
def CI_MAX_WAIT_MS : Nat := 600000

/-- Maximal number of polls before the cap: `600000 / 15000 = 40`. -/
def pollBudget : Nat := CI_MAX_WAIT_MS / CI_POLL_INTERVAL_MS

/-- One check reported by `gh pr checks` (`name`, `state`, `conclusion`). -/
structure CICheck where
  name : String
  cstate : String
  conclusion : String
deriving DecidableEq, Repr

/-- A check still in flight. -/
def isPendingCheck (c : CICheck) : Bool :=
  c.cstate = "PENDING" || c.cstate = "IN_PROGRESS" || c.cstate = "QUEUED"

/-- A check with a failing conclusion. -/
def isFailedCheck (c : CICheck) : Bool :=
  c.conclusion = "FAILURE" || c.conclusion = "CANCELLED" ||
    c.conclusion = "TIMED_OUT"

/-- Outcome of one `gh pr checks` invocation: a CLI error or a parsed
check list. -/
inductive PollResult where
  | err (msg : String)
  | ok (checks : List CICheck)
deriving DecidableEq, Repr

/-- Return value of `waitForCI`. -/
structure CIResult where
  passed : Bool
  timeout : Bool
  noCi : Bool
  errMsg : Option String
  failedChecks : List CICheck
deriving DecidableEq, Repr

/-- The polling loop of `waitForCI`, with `r = pollBudget - k` remaining
polls; `r = 0` is the `while` guard failing, which returns the timeout
result `{ passed: false, timeout: true }`. -/
def waitGoR (polls : Nat → PollResult) (k : Nat) : Nat → CIResult
  | 0 => ⟨false, true, false, none, []⟩
  | r + 1 =>
      match polls k with
      | .err m => ⟨true, false, false, some m, []⟩
      | .ok checks =>
          if checks.isEmpty then ⟨true, false, true, none, []⟩
          else
            let failed := checks.filter isFailedCheck
            if failed.isEmpty = false then ⟨false, false, false, none, failed⟩
            else if (checks.filter isPendingCheck).isEmpty then
              ⟨true, false, false, none, []⟩
            else waitGoR polls (k + 1) r

/-- `waitForCI` from `stop-hook-v2.js`. -/
def waitForCI (polls : Nat → PollResult) : CIResult :=
  waitGoR polls 0 pollBudget

/-! ## The v2 stop hook main decision chain (`stop-hook-v2.js`, `main`) -/

/-- Contents of `.deep/state.json` as used by `stop-hook-v2.js`
(`maxIterations = 0` models a falsy/absent `maxIterations`). -/
structure DState where
  phase : String
  iteration : Nat
  maxIterations : Nat
  complete : Bool
deriving DecidableEq, Repr

/-- `checkIterationLimit` from `stop-hook-v2.js`: blocked iff a state with a
truthy `maxIterations` has `iteration >= maxIterations`. -/
def checkIterationLimit (st : Option DState) : Bool :=
  match st with
  | none => false
  | some s =>
      if s.maxIterations = 0 then false
      else decide (s.iteration ≥ s.maxIterations)

/-- One entry of `.deep/persistent-tasks.json`. -/
structure PTask where
  id : String
  status : String
  content : String
  createdAt : Nat
deriving DecidableEq, Repr

/-- `getPendingTasks` from `stop-hook-v2.js`: drop completed/blocked tasks
and tasks older than the staleness window. -/
def getPendingTasks (now staleMs : Nat) (tasksData : Option (List PTask)) :
    List PTask :=
  match tasksData with
  | none => []
  | some ts =>
      ts.filter fun t =>
        !(t.status = "completed" || t.status = "blocked") &&
          decide (now - t.createdAt ≤ staleMs)

/-- `checkUserEscalation` from `stop-hook-v2.js`, with `failures.json`
summarised as per-task failure counts: escalate when a task's count reached
`MAX_CONSECUTIVE_FAILURES = 3`. -/
def checkUserEscalation (failures : List (String × Nat)) (tid : String) :
    Bool :=
  match failures.find? (fun p => p.1 = tid) with
  | some p => decide (p.2 ≥ 3)
  | none => false

/-- Phases for which `getPhasePrompt` in `stop-hook-v2.js` returns a prompt
(`COMPLETE` and unknown phases return `null`). -/
def hasPromptV2 (phase : String) : Bool :=
  phase = "PLAN" || phase = "BUILD" || phase = "REVIEW" || phase = "FIX" ||
    phase = "SHIP"

/-- All file-system and oracle inputs of one `stop-hook-v2.js` invocation. -/
structure V2Input where
  forceExit : Bool
  forceComplete : Bool
  ralphHandoff : Bool
  escalationFile : Bool
  rlmBlocked : Bool
  stateFile : Option DState
  stale : Bool
  testResults : Option TestResults
  gitResults : Option GitResults
  ciPolls : Nat → PollResult
  tasksData : Option (List PTask)
  failures : List (String × Nat)
  now : Nat
  staleMs : Nat

/-- Decision of one `stop-hook-v2.js` invocation, tagged with which branch
of `main` produced it and the state record that branch writes back. -/
inductive V2Out where
  | allowForceExit
  | allowForceComplete
  | allowRalph
  | blockEscalation
  | blockRlm
  | blockIterLimit (iteration maxIterations : Nat)
  | blockPhase (phase : String)
  | blockTestVerif (newState : DState) (missing failed : List String)
  | blockCIFailed (newState : DState)
  | blockGitVerif (newState : DState) (missing failed : List String)
  | blockTaskEscalation (taskId : String)
  | blockPendingTasks (n : Nat)
  | allowDone
deriving DecidableEq, Repr

/-- The exit code each branch of `main` ends with. -/
def exitOfV2 : V2Out → Exit
  | .allowForceExit => .allow
  | .allowForceComplete => .allow
  | .allowRalph => .allow
  | .allowDone => .allow
  | _ => .block

/-- The state record written back by the completion-verification branches
of `main` (the `state.phase = ...; state.complete = false` writes). -/
def writtenStateV2 : V2Out → Option DState
  | .blockTestVerif st _ _ => some st
  | .blockCIFailed st => some st
  | .blockGitVerif st _ _ => some st
  | _ => none

/-- The persistent-tasks tail of `main` (Edge Case 4 then final allow). -/
def v2Tail (inp : V2Input) : V2Out :=
  match getPendingTasks inp.now inp.staleMs inp.tasksData with
  | [] => .allowDone
  | t0 :: rest =>
      let current :=
        (((t0 :: rest).find? fun t => t.status = "in_progress")).getD t0
      if checkUserEscalation inp.failures current.id then
        .blockTaskEscalation current.id
      else .blockPendingTasks (t0 :: rest).length

/-- The completion-verification section of `main` (Edge Cases 3 and 7,
including the active CI polling path), entered when the state claims
completion. -/
def v2Verify (inp : V2Input) (s : DState) : V2Out :=
  let testV := verifyTestResults inp.testResults
  if testV.valid = false then
    .blockTestVerif { s with phase := "REVIEW", complete := false }
      testV.missing testV.failed
  else
    let gitV := verifyGitResults inp.gitResults
    if gitV.skip = false ∧ gitV.valid = false then
      match inp.gitResults with
      | some g =>
          if gitV.missing.contains "CI not checked" ∧ g.prNumber.isSome then
            let ciRes := waitForCI inp.ciPolls
            if ciRes.passed = false then
              .blockCIFailed { s with phase := "FIX", complete := false }
            else
              let g2 := { g with ciChecked := true, ciPassed := ciRes.passed }
              let gitV2 := verifyGitResults (some g2)
              if gitV2.skip = false ∧ gitV2.valid = false then
                .blockGitVerif { s with phase := "REVIEW", complete := false }
                  gitV2.missing gitV2.failed
              else v2Tail inp
          else
            .blockGitVerif { s with phase := "REVIEW", complete := false }
              gitV.missing gitV.failed
      | none =>
          .blockGitVerif { s with phase := "REVIEW", complete := false }
            gitV.missing gitV.failed
    else v2Tail inp

/-- `main` from `stop-hook-v2.js` as a pure decision function. -/
def mainV2 (inp : V2Input) : V2Out :=
  if inp.forceExit then .allowForceExit
  else if inp.forceComplete then .allowForceComplete
  else if inp.ralphHandoff then .allowRalph
  else if inp.escalationFile then .blockEscalation
  else if inp.rlmBlocked then .blockRlm
  else
    match inp.stateFile with
    | some s =>
        if s.complete = false ∧ s.phase ≠ "COMPLETE" ∧ s.phase ≠ "SHIP" then
          if inp.stale then v2Tail inp
          else if checkIterationLimit (some s) then
            .blockIterLimit s.iteration s.maxIterations
          else if hasPromptV2 s.phase then .blockPhase s.phase
          else v2Tail inp
        else v2Verify inp s
    | none => v2Tail inp

/-! ## The v4 stop hook (`part_008` of the sources, "Deep Loop Stop Hook
v4.0"): transcript scanning and the main decision chain.

The transcript is a string of JSONL lines; `JSON.parse` of a line is an
oracle `parse : String → Option ParsedMsg` (`none` = the line throws).  The
byte-level 50 KB tail is modelled as a character-level tail (the transcript
is treated as ASCII). -/

/-- `TRANSCRIPT_TAIL_BYTES = 50 * 1024`. -/
def TRANSCRIPT_TAIL_BYTES : Nat := 51200

/-- One element of `msg.message.content` after `JSON.parse`. -/
structure ContentPart where
  ctype : String
  text : String
deriving DecidableEq, Repr

/-- The part of a parsed transcript line that
`checkPromiseInTranscript` reads. -/
structure ParsedMsg where
  content : List ContentPart
deriving DecidableEq, Repr

/-- `readTranscriptTail`: the whole log if small, otherwise its last
`TRANSCRIPT_TAIL_BYTES`. -/
def readTranscriptTail (log : String) : String :=
  if log.length ≤ TRANSCRIPT_TAIL_BYTES then log
  else ⟨log.data.drop (log.length - TRANSCRIPT_TAIL_BYTES)⟩

/-- Split a character list at every occurrence of `sep`
(JavaScript `split`). -/
def splitChar (sep : Char) : List Char → List (List Char)
  | [] => [[]]
  | c :: t =>
      match splitChar sep t with
      | [] => [[]]
      | r :: rs => if c = sep then [] :: r :: rs else (c :: r) :: rs

/-- `content.split('\n')` on strings. -/
def splitLines (s : String) : List String :=
  (splitChar (Char.ofNat 10) s.data).map fun l => ⟨l⟩

/-- The structural sentinel wrapper `<promise>...</promise>`. -/
def promiseTag (p : String) : String := "<promise>" ++ p ++ "</promise>"

/-- The raw-line filter `l.includes('"role":"assistant"')`. -/
def assistantMarker : String := "\"role\":\"assistant\""

/-- `(msg.message?.content || []).filter(c => c.type === 'text')
.map(c => c.text).join('\n')`. -/
def textJoined (m : ParsedMsg) : String :=
  String.intercalate "\n"
    ((m.content.filter fun c => c.ctype = "text").map fun c => c.text)

/-- The body of the `for (const line of assistantLines)` loop: parse the
line (a parse failure is logged and skipped) and test whether the joined
text parts contain the wrapped sentinel. -/
def lineHasPromise (parse : String → Option ParsedMsg) (p l : String) :
    Bool :=
  match parse l with
  | none => false
  | some m => strContains (textJoined m) (promiseTag p)

/-- The most recent 10 lines of the tail that pass the assistant-marker
filter (`lines.filter(Boolean).filter(...).slice(-10)`). -/
def recentAssistantLines (log : String) : List String :=
  let lines := (splitLines (readTranscriptTail log)).filter fun l => l ≠ ""
  let aLines := lines.filter fun l => strContains l assistantMarker
  aLines.drop (aLines.length - 10)

/-- `checkPromiseInTranscript` from the v4 stop hook. -/
def checkPromiseInTranscript (parse : String → Option ParsedMsg)
    (log p : String) : Bool :=
  if readTranscriptTail log = "" then false
  else (recentAssistantLines log).any (lineHasPromise parse p)

/-- `STALE_THRESHOLD_MS = 8 * 60 * 60 * 1000` (8 hours). -/
def STALE_THRESHOLD_MS : Nat := 28800000

/-- Contents of the v4 `state.json` (`maxIterations = 0` models a
falsy/absent `maxIterations`). -/
structure V4State where
  active : Bool
  mode : String
  phase : String
  iteration : Nat
  maxIterations : Nat
  complete : Bool
  result : String
  startedAt : Nat
deriving DecidableEq, Repr

/-- `isQuickMode`. -/
def isQuickMode (s : V4State) : Bool := s.mode = "quick"

/-- `isExternalMode`. -/
def isExternalMode (s : V4State) : Bool := s.mode = "external"

/-- `getMaxIterations`: quick mode caps at 3, otherwise
`state.maxIterations || 10`. -/
def getMaxIterations (s : V4State) : Nat :=
  if isQuickMode s then 3
  else if s.maxIterations = 0 then 10 else s.maxIterations

/-- `isStale`: started more than 8 hours ago. -/
def isStaleV4 (now : Nat) (s : V4State) : Bool :=
  decide (now - s.startedAt > STALE_THRESHOLD_MS)

/-- The `PHASE_PROMISES` table. -/
def phasePromise : String → Option String
  | "CHALLENGE" => some "CHALLENGE_COMPLETE"
  | "RLM_EXPLORE" => some "RLM_COMPLETE"
  | "PLAN" => some "PLAN_COMPLETE"
  | "BUILD" => some "BUILD_COMPLETE"
  | "REVIEW" => some "REVIEW_COMPLETE"
  | "FIX" => some "FIX_COMPLETE"
  | "SHIP" => some "SHIP_COMPLETE"
  | _ => none

/-- The state write on detecting `DEEP_COMPLETE` (both in external mode and
in the deep loop): `state.complete = true; state.phase = 'COMPLETE'`. -/
def deepCompleteUpdate (s : V4State) : V4State :=
  { s with complete := true, phase := "COMPLETE" }

/-- The state write on quick-mode completion: `state.complete = true;
state.result = 'success'; state.active = false` — the phase is left
untouched. -/
def quickCompleteUpdate (s : V4State) : V4State :=
  { s with complete := true, result := "success", active := false }

/-- The state write of the continue-loop branch: `state.iteration =
(state.iteration || 0) + 1` (the `lastActivity` timestamp write is not
modelled). -/
def continueUpdate (s : V4State) : V4State :=
  { s with iteration := s.iteration + 1 }

/-- Decision of one v4 stop-hook invocation, tagged with the branch of
`main` that produced it and the state record that branch writes. -/
inductive V4Out where
  | allowForceExit
  | allowNoLoop
  | allowExternal (written : Option V4State)
  | allowComplete
  | allowStale
  | allowIterLimit (iteration maxIter : Nat)
  | allowQuickDone (written : V4State)
  | allowPhaseDone (phase : String)
  | allowDeepDone (written : V4State)
  | blockLoop (written : V4State) (quick : Bool)
deriving DecidableEq, Repr

/-- The exit code of each branch of the v4 `main` (only the continue-loop
branch prints the block JSON and exits 2). -/
def exitOfV4 : V4Out → Exit
  | .blockLoop _ _ => .block
  | _ => .allow

/-- `main` of the v4 stop hook as a pure decision function (the
`detectCurrentStep` progress write only touches `current_step` and is not
modelled). -/
def mainV4 (now : Nat) (forceExit : Bool)
    (parse : String → Option ParsedMsg) (transcript : String)
    (st : Option V4State) : V4Out :=
  if forceExit = true then .allowForceExit
  else
    match st with
    | none => .allowNoLoop
    | some s =>
        if s.active = false then .allowNoLoop
        else if isExternalMode s = true then
          if checkPromiseInTranscript parse transcript "DEEP_COMPLETE" =
              true then
            .allowExternal (some (deepCompleteUpdate s))
          else .allowExternal none
        else
          let maxIter := getMaxIterations s
          if s.complete = true ∨ s.phase = "COMPLETE" then .allowComplete
          else if isStaleV4 now s = true then .allowStale
          else if s.iteration ≥ maxIter then
            .allowIterLimit s.iteration maxIter
          else if isQuickMode s = true ∧
              checkPromiseInTranscript parse transcript "QUICK_COMPLETE" =
                true then
            .allowQuickDone (quickCompleteUpdate s)
          else
            match phasePromise s.phase with
            | some pp =>
                if checkPromiseInTranscript parse transcript pp = true then
                  .allowPhaseDone s.phase
                else if checkPromiseInTranscript parse transcript
                    "DEEP_COMPLETE" = true then
                  .allowDeepDone (deepCompleteUpdate s)
                else .blockLoop (continueUpdate s) (isQuickMode s)
            | none =>
                if checkPromiseInTranscript parse transcript
                    "DEEP_COMPLETE" = true then
                  .allowDeepDone (deepCompleteUpdate s)
                else .blockLoop (continueUpdate s) (isQuickMode s)

/-- The recovery-option block of the v4 iteration-limit message
(source lines `Options: 1. Force exit ... 2. Increase limit ...
3. Mark complete ...`). -/
def v4RecoveryOptions (dir : String) : String :=
  "Options:\n1. Force exit: touch " ++ dir ++
    "/FORCE_EXIT\n2. Increase limit: edit " ++ dir ++
    "/state.json maxIterations\n3. Mark complete: set complete: true in state.json\n"

/-- The v4 iteration-limit message printed before `process.exit(0)`. -/
def v4LimitMessage (modeLabel dir : String) (iteration maxIter : Nat) :
    String :=
  "\n## " ++ modeLabel ++ " ITERATION LIMIT REACHED (" ++
    toString iteration ++ "/" ++ toString maxIter ++ ")\n\n" ++
    v4RecoveryOptions dir

/-- The declared phase values of the v4 state machine. -/
def phaseEnumV4 : List String :=
  ["CHALLENGE", "RLM_EXPLORE", "PLAN", "BUILD", "REVIEW", "FIX", "SHIP",
    "COMPLETE"]

/-! ## Fail-open top level (`main().catch(err => ...process.exit(0))` in
`stop-hook-v2.js`; the stdin handler plus `main(...).catch` in the v4
hook).  The body of `main` is an oracle that either returns a decision or
throws. -/

/-- The `.catch` wrapper: a thrown error exits 0 (allow). -/
def catchWrap (r : Except String Exit) : Exit :=
  match r with
  | .ok d => d
  | .error _ => .allow

/-- The v4 stdin entry point: a parsed hook input runs `main` on the
transcript path, a stdin parse failure runs `main(null)`; both are wrapped
in `.catch`. -/
def hookEntry (stdinParse : Option String)
    (runMain : Option String → Except String Exit) : Exit :=
  match stdinParse with
  | some tp => catchWrap (runMain (some tp))
  | none => catchWrap (runMain none)

/-! ## The deep-execute task queue (`part_001` of the sources, the
`deep-execute` skill): claims, priority selection, failure handling, and
the SHIP-phase push loop with conflict quarantine. -/

/-- `Claim timeout: 30 min`. -/
def CLAIM_TIMEOUT_MS : Nat := 1800000

/-- Task priority classes (selection order high → medium → low). -/
inductive Prio where
  | high
  | medium
  | low
deriving DecidableEq, Repr

/-- Status of a queued task in `tasks.md`. -/
inductive TStatus where
  | pending
  | gitBlocked
deriving DecidableEq, Repr

/-- One `## [ ] task-XXX` entry of `tasks.md`. -/
structure QTask where
  id : String
  prio : Prio
  attempts : Nat
  status : TStatus
deriving DecidableEq, Repr

/-- One entry of `claims.json`. -/
structure ClaimRec where
  taskId : String
  claimedBy : String
  claimedAt : Nat
  expiresAt : Nat
deriving DecidableEq, Repr

/-- One entry of `git-conflicts.json` together with its recovery branch. -/
structure ConflictRecord where
  taskId : String
  blockedAt : Nat
  session : String
  conflictingFiles : List String
  localCommit : String
  remoteCommit : String
  recoveryBranch : String
deriving DecidableEq, Repr

/-- Status of an entry appended to `completed-tasks.md`. -/
inductive LStatus where
  | completedWith (sha : String)
  | skipped
deriving DecidableEq, Repr

/-- One entry of `completed-tasks.md`. -/
structure LedgerEntry where
  taskId : String
  status : LStatus
deriving DecidableEq, Repr

/-- The whole queue state: active tasks, the claims table, the conflict
table and the completed/failed ledger. -/
structure QState where
  tasks : List QTask
  claims : List ClaimRec
  conflicts : List ConflictRecord
  ledger : List LedgerEntry
deriving DecidableEq, Repr

/-- Look up a task's claim in `claims.json`. -/
def claimFor (claims : List ClaimRec) (tid : String) : Option ClaimRec :=
  claims.find? fun c => c.taskId = tid

/-- "Stale claims: claims older than 30 min can be stolen". -/
def claimExpired (now : Nat) (c : ClaimRec) : Bool :=
  decide (now - c.claimedAt > CLAIM_TIMEOUT_MS)

/-- Step 2 eligibility: unclaimed or expired, not git-blocked, and below
the three-attempt cap (Step 6 filters `Attempts >= 3`). -/
def eligibleTask (now : Nat) (claims : List ClaimRec) (t : QTask) : Bool :=
  decide (t.attempts < 3) && t.status == TStatus.pending &&
    (match claimFor claims t.id with
     | none => true
     | some c => claimExpired now c)

/-- Step 2 selection: high then medium then low priority, declaration
order within a tier, first eligible task. -/
def selectNext (now : Nat) (claims : List ClaimRec) (tasks : List QTask) :
    Option QTask :=
  ((tasks.filter fun t => t.prio == Prio.high) ++
    (tasks.filter fun t => t.prio == Prio.medium) ++
    (tasks.filter fun t => t.prio == Prio.low)).find?
    (eligibleTask now claims)

/-- Remove a task's claim from `claims.json`. -/
def releaseClaims (claims : List ClaimRec) (tid : String) :
    List ClaimRec :=
  claims.filter fun c => !(c.taskId = tid)

/-- Step 5 "On Failure": increment `Attempts`, release the claim; at
`Attempts >= 3` the task moves to `completed-tasks.md` as SKIPPED instead
of staying in the queue. -/
def onFailure (q : QState) (t : QTask) : QState :=
  let a := t.attempts + 1
  if a ≥ 3 then
    { tasks := q.tasks.filter fun u => !(u.id = t.id),
      claims := releaseClaims q.claims t.id,
      conflicts := q.conflicts,
      ledger := q.ledger ++ [⟨t.id, .skipped⟩] }
  else
    { tasks := q.tasks.map fun u =>
        if u.id = t.id then { u with attempts := a } else u,
      claims := releaseClaims q.claims t.id,
      conflicts := q.conflicts,
      ledger := q.ledger }

/-- Step 5 "On Success": remove the task from the queue, drop its claim
and any stale conflict entry, append it to the ledger with its commit. -/
def onSuccess (q : QState) (t : QTask) (sha : String) : QState :=
  { tasks := q.tasks.filter fun u => !(u.id = t.id),
    claims := releaseClaims q.claims t.id,
    conflicts := q.conflicts.filter fun r => !(r.taskId = t.id),
    ledger := q.ledger ++ [⟨t.id, .completedWith sha⟩] }

/-- Step 5 "On Git-Blocked": record the conflict (pointing at the
`deep-recovery/task-XXX-session` recovery branch), mark the task
git-blocked with `Attempts` NOT incremented, and release the claim. -/
def onGitBlocked (q : QState) (t : QTask) (session : String) (now : Nat)
    (files : List String) (localC remoteC : String) : QState :=
  { tasks := q.tasks.map fun u =>
      if u.id = t.id then { u with status := .gitBlocked } else u,
    claims := releaseClaims q.claims t.id,
    conflicts := q.conflicts ++
      [⟨t.id, now, session, files, localC, remoteC,
        "deep-recovery/" ++ t.id ++ "-" ++ session⟩],
    ledger := q.ledger }

/-- Result of `git rebase origin/$BRANCH` after a rejected push: clean, a
content conflict (`git diff --name-only --diff-filter=U` non-empty), or
some other rebase error. -/
inductive RebaseRes where
  | clean
  | conflict (files : List String)
  | other
deriving DecidableEq, Repr

/-- Outcome of one `git push` attempt in the SHIP loop. -/
inductive PushAttempt where
  | ok
  | rejected (r : RebaseRes)
deriving DecidableEq, Repr

/-- Outcome of the SHIP push loop. -/
inductive PushOutcome where
  | success
  | gitConflict (files : List String)
  | exhausted
deriving DecidableEq, Repr

/-- `MAX_PUSH_ATTEMPTS=3`. -/
def MAX_PUSH_ATTEMPTS : Nat := 3

/-- The SHIP push loop with `r` attempts remaining: push; on rejection
rebase; a clean (or non-conflict) rebase retries, a conflict aborts the
rebase and breaks with `GIT_CONFLICT=1`. -/
def pushGo (g : Nat → PushAttempt) (k : Nat) : Nat → PushOutcome
  | 0 => .exhausted
  | r + 1 =>
      match g k with
      | .ok => .success
      | .rejected .clean => pushGo g (k + 1) r
      | .rejected (.conflict fs) => .gitConflict fs
      | .rejected .other => pushGo g (k + 1) r

/-- The whole `while [ $PUSH_ATTEMPTS -lt $MAX_PUSH_ATTEMPTS ]` loop. -/
def pushLoop (g : Nat → PushAttempt) : PushOutcome :=
  pushGo g 0 MAX_PUSH_ATTEMPTS

/-- Step 4e outcome dispatch: push success completes the task, a git
conflict quarantines it (no attempt counted), exhausted attempts mark it
push-failed (a counted failure). -/
def handleShip (q : QState) (t : QTask) (session : String) (now : Nat)
    (localC remoteC sha : String) (g : Nat → PushAttempt) : QState :=
  match pushLoop g with
  | .success => onSuccess q t sha
  | .gitConflict fs => onGitBlocked q t session now fs localC remoteC
  | .exhausted => onFailure q t

/-! ## Concrete scenario inputs used by counterexamples and witnesses -/

/-- A parse oracle on which every line throws. -/
def parseNone : String → Option ParsedMsg := fun _ => none

/-- A poll oracle that always reports one check as inconclusive: parses
fine, non-empty, nothing failed, something pending. -/
def ciInconclusive (p : PollResult) : Bool :=
  match p with
  | .err _ => false
  | .ok checks =>
      !checks.isEmpty && (checks.filter isFailedCheck).isEmpty &&
        !(checks.filter isPendingCheck).isEmpty

/-- A poll oracle whose checks never conclude (used to exercise the
10-minute timeout). -/
def c9Polls : Nat → PollResult := fun _ => .ok [⟨"build", "PENDING", ""⟩]

/-- A poll oracle reporting an empty check list. -/
def pollsNone : Nat → PollResult := fun _ => .ok []

/-- v2 state at the iteration ceiling: `iteration = maxIterations = 3`,
phase `PLAN`, not complete. -/
def c2State : DState := ⟨"PLAN", 3, 3, false⟩

/-- A v2 invocation with the ceiling reached and no other guard firing. -/
def c2Input : V2Input :=
  { forceExit := false, forceComplete := false, ralphHandoff := false,
    escalationFile := false, rlmBlocked := false, stateFile := some c2State,
    stale := false, testResults := none, gitResults := none,
    ciPolls := pollsNone, tasksData := none, failures := [], now := 0,
    staleMs := 0 }

/-- A category result that ran and passed. -/
def goodCat : CatResult := ⟨true, true⟩

/-- A `test-results.json` with all four categories passing. -/
def c3TestResults : TestResults :=
  ⟨some goodCat, some goodCat, some goodCat, some goodCat, true⟩

/-- A `git-results.json` with a created PR whose CI has not been checked:
`verifyGitResults` reports missing `CI not checked`, triggering the active
CI poll. -/
def c3Git : GitResults :=
  { isGitRepo := true, hasGhCli := true, requirePR := true,
    requireCIPass := true, requireMerge := false, prCreated := true,
    prNumber := some 7, ciChecked := false, ciPassed := false,
    merged := false }

/-- A poll oracle reporting one failed CI check. -/
def c3Polls : Nat → PollResult :=
  fun _ => .ok [⟨"build", "COMPLETED", "FAILURE"⟩]

/-- v2 state claiming completion. -/
def c3State : DState := ⟨"COMPLETE", 5, 10, true⟩

/-- A v2 invocation where the session claims completion, the test evidence
is clean, and the actively polled CI fails. -/
def c3Input : V2Input :=
  { forceExit := false, forceComplete := false, ralphHandoff := false,
    escalationFile := false, rlmBlocked := false, stateFile := some c3State,
    stale := false, testResults := some c3TestResults,
    gitResults := some c3Git, ciPolls := c3Polls, tasksData := none,
    failures := [], now := 0, staleMs := 0 }

/-- v2 state claiming completion with no test evidence on disk. -/
def c3wState : DState := ⟨"COMPLETE", 1, 5, true⟩

/-- A v2 invocation where the session claims completion but
`test-results.json` is absent. -/
def c3wInput : V2Input :=
  { forceExit := false, forceComplete := false, ralphHandoff := false,
    escalationFile := false, rlmBlocked := false,
    stateFile := some c3wState, stale := false, testResults := none,
    gitResults := none, ciPolls := pollsNone, tasksData := none,
    failures := [], now := 0, staleMs := 0 }

/-- A transcript consisting of one assistant-authored JSONL line. -/
def qLine : String := "x\"role\":\"assistant\"x"

/-- A parse oracle under which `qLine` parses to one text part holding the
quick-mode completion sentinel. -/
def quickParse : String → Option ParsedMsg := fun l =>
  if l = qLine then
    some ⟨[⟨"text", "<promise>QUICK_COMPLETE</promise>"⟩]⟩
  else none

/-- A parse oracle under which `qLine` parses to one text part holding the
deep-mode completion sentinel. -/
def deepParse : String → Option ParsedMsg := fun l =>
  if l = qLine then
    some ⟨[⟨"text", "<promise>DEEP_COMPLETE</promise>"⟩]⟩
  else none

/-- An active quick-mode v4 state sitting in phase `PLAN`. -/
def c6State : V4State :=
  { active := true, mode := "quick", phase := "PLAN", iteration := 1,
    maxIterations := 0, complete := false, result := "", startedAt := 0 }

/-- An active deep-mode v4 state sitting in phase `PLAN`. -/
def c6DeepState : V4State :=
  { active := true, mode := "deep", phase := "PLAN", iteration := 1,
    maxIterations := 10, complete := false, result := "", startedAt := 0 }

/-- A claimed high-priority task with one prior attempt. -/
def c4Task : QTask := ⟨"task-005", .high, 1, .pending⟩

/-- An unrelated pending task. -/
def c4Other : QTask := ⟨"task-006", .medium, 0, .pending⟩

/-- A queue where `task-005` is claimed by session `abc12345`. -/
def c4Queue : QState :=
  ⟨[c4Task, c4Other], [⟨"task-005", "abc12345", 0, 1800000⟩], [], []⟩

/-- A git oracle whose push is rejected and whose rebase conflicts on
`src/utils/helpers.ts`. -/
def c4Push : Nat → PushAttempt :=
  fun _ => .rejected (.conflict ["src/utils/helpers.ts"])

/-- A claimed task at two prior attempts (the next failure is its third). -/
def c7Task : QTask := ⟨"task-004", .low, 2, .pending⟩

/-- A queue holding only `c7Task` and its claim. -/
def c7Queue : QState := ⟨[c7Task], [⟨"task-004", "w1", 0, 0⟩], [], []⟩

/-- A claimed task with no prior attempts. -/
def c7Task2 : QTask := ⟨"task-009", .high, 0, .pending⟩

/-- A queue holding only `c7Task2` and its claim. -/
def c7Queue2 : QState := ⟨[c7Task2], [⟨"task-009", "w1", 0, 0⟩], [], []⟩

/-- An active deep-mode v4 state with ceiling 2 at iteration 0. -/
def c2V4State : V4State :=
  { active := true, mode := "deep", phase := "PLAN", iteration := 0,
    maxIterations := 2, complete := false, result := "", startedAt := 0 }

/-! # Theorems -/

/-- `isPref` decides list prefixes. -/
theorem isPref_iff (n h : List Char) : isPref n h = true ↔ n <+: h := by
  induction n generalizing h with
  | nil => simp [isPref]
  | cons a as ih =>
    cases h with
    | nil => simp [isPref]
    | cons b bs =>
      simp [isPref, ih, List.cons_prefix_cons]

/-- `listInf` decides list infixes. -/
theorem listInf_iff (n h : List Char) : listInf n h = true ↔ n <:+: h := by
  induction h with
  | nil => simp [listInf, List.isEmpty_iff, List.infix_nil]
  | cons c t ih =>
    simp only [listInf, Bool.or_eq_true, isPref_iff, ih, List.infix_cons_iff]

/-- `strContains` is substring occurrence on the underlying characters. -/
theorem strContains_iff (hay needle : String) :
    strContains hay needle = true ↔ needle.data <:+: hay.data := by
  simp [strContains, listInf_iff]

/-- Coherence of the race model: running one worker's two steps back to
back is exactly the atomic `acquireLock`. -/
theorem raceRun_solo (now : Nat) (pid pidB : String) (lock : Option LockRec) :
    raceRun now 0 pid pidB ⟨lock, .start, .start⟩ [true, true] =
      ⟨(acquireLock now pid lock).2, .done (acquireLock now pid lock).1,
        .start⟩ := by
  cases lock with
  | none => rfl
  | some l =>
      by_cases h : now - l.acquiredAt < LOCK_TIMEOUT_MS <;>
        simp [raceRun, raceStep, wStep, acquireLock, h]

/-- The `waitForCI` while-loop guard at poll `k` is exactly
`k < pollBudget`. -/
theorem ciGuard_iff (k : Nat) :
    k * CI_POLL_INTERVAL_MS < CI_MAX_WAIT_MS ↔ k < pollBudget := by
  simp only [CI_POLL_INTERVAL_MS, CI_MAX_WAIT_MS, pollBudget]
  omega

/-- C1 (counterexample). The claim says that when two workers concurrently
attempt to claim the same unclaimed item, at most one attempt succeeds.
`acquireLock` is check-then-write without atomicity: under the interleaving
check-A, check-B, write-A, write-B (both clocks at 0, lock file absent),
both workers return `acquired: true`. -/
theorem concurrent_claims_both_succeed :
    (raceRun 0 0 "wA" "wB" ⟨none, .start, .start⟩
        [true, false, true, false]).phA = WPhase.done true ∧
    (raceRun 0 0 "wA" "wB" ⟨none, .start, .start⟩
        [true, false, true, false]).phB = WPhase.done true := by
  decide

/-- C1 (amended). When the two claim attempts are serialized — the first
attempt's check and write both complete before the second attempt starts —
at most one succeeds: the second attempt, arriving within the lease window,
observes the fresh lock and returns `acquired: false`.  (Truly interleaved
attempts may both succeed, see the counterexample.) -/
theorem serialized_claim_mutual_exclusion (now now2 : Nat)
    (pidA pidB : String) (h : now2 < now + LOCK_TIMEOUT_MS) :
    (raceRun now now2 pidA pidB ⟨none, .start, .start⟩
        [true, true, false, false]).phA = WPhase.done true ∧
    (raceRun now now2 pidA pidB ⟨none, .start, .start⟩
        [true, true, false, false]).phB = WPhase.done false := by
  have hlt : now2 - now < LOCK_TIMEOUT_MS := by
    simp only [LOCK_TIMEOUT_MS] at *
    omega
  simp [raceRun, raceStep, wStep, hlt]

/-- Witness for the amended C1 theorem at `now = 0`, `now2 = 1`. -/
theorem serialized_claim_mutual_exclusion_witness :
    (raceRun 0 1 "wA" "wB" ⟨none, .start, .start⟩
        [true, true, false, false]).phA = WPhase.done true ∧
    (raceRun 0 1 "wA" "wB" ⟨none, .start, .start⟩
        [true, true, false, false]).phB = WPhase.done false :=
  serialized_claim_mutual_exclusion 0 1 "wA" "wB" (by decide)

/-- C8 (counterexample). The claim says a claim acquired at `t` with lease
`L` is stealable iff `now > t + L`, never earlier.  `acquireLock` keeps an
existing lock only while `age < LOCK_TIMEOUT_MS`, so at `now = t + L`
exactly (here `t = 0`, `now = LOCK_TIMEOUT_MS`) the lock is already
stolen although `now > t + L` does not hold. -/
theorem lease_boundary_steal_at_expiry :
    (acquireLock LOCK_TIMEOUT_MS "wB" (some ⟨"wA", 0⟩)).1 = true ∧
    ¬ (LOCK_TIMEOUT_MS > 0 + LOCK_TIMEOUT_MS) := by
  decide

/-- C8 (amended). A lock acquired at `acqT` is stealable iff
`now ≥ acqT + LOCK_TIMEOUT_MS` (i.e. `age ≥ L`; at the boundary it is
already stale); strictly before that bound the attempt fails and leaves
the lock untouched, and short of expiry only a release by the holder makes
acquisition succeed — a release by anyone else leaves the lock in place. -/
theorem lease_steal_iff_age_ge_timeout (now acqT : Nat)
    (holder thief other : String) :
    ((acquireLock now thief (some ⟨holder, acqT⟩)).1 = true ↔
      acqT + LOCK_TIMEOUT_MS ≤ now)
    ∧ (now < acqT + LOCK_TIMEOUT_MS →
        acquireLock now thief (some ⟨holder, acqT⟩) =
          (false, some ⟨holder, acqT⟩))
    ∧ (acquireLock now thief (releaseLock holder (some ⟨holder, acqT⟩))).1 =
        true
    ∧ (other ≠ holder →
        releaseLock other (some ⟨holder, acqT⟩) = some ⟨holder, acqT⟩) := by
  refine ⟨?_, ?_, ?_, ?_⟩
  · by_cases h : now - acqT < LOCK_TIMEOUT_MS
    · simp only [acquireLock, if_pos h]
      simp only [LOCK_TIMEOUT_MS] at *
      constructor
      · intro hc
        exact absurd hc (by simp)
      · intro hc
        omega
    · simp only [acquireLock, if_neg h]
      simp only [LOCK_TIMEOUT_MS] at *
      constructor
      · intro _
        omega
      · intro _
        trivial
  · intro h
    have hlt : now - acqT < LOCK_TIMEOUT_MS := by
      simp only [LOCK_TIMEOUT_MS] at *
      omega
    simp [acquireLock, hlt]
  · simp [releaseLock, acquireLock]
  · intro h
    have hne : ¬ (holder = other) := fun hh => h hh.symm
    simp [releaseLock, hne]

/-- Witness for the amended C8 theorem at `now = 10`, `acqT = 0`. -/
theorem lease_steal_iff_age_ge_timeout_witness :
    acquireLock 10 "wB" (some ⟨"wA", 0⟩) = (false, some ⟨"wA", 0⟩) ∧
    (acquireLock 10 "wB" (releaseLock "wA" (some ⟨"wA", 0⟩))).1 = true ∧
    releaseLock "other" (some ⟨"wA", 0⟩) = some ⟨"wA", 0⟩ := by
  have h := lease_steal_iff_age_ge_timeout 10 0 "wA" "wB" "other"
  exact ⟨h.2.1 (by decide), h.2.2.1, h.2.2.2 (by decide)⟩

/-- C10. If the hook's `main` throws (an unhandled internal error), the
`.catch` wrappers in both hooks exit with code 0: the invocation allows
the worker to exit rather than trapping it in the loop (fail-open at the
host interface). -/
theorem fail_open_on_error :
    (∀ e : String, catchWrap (Except.error e) = Exit.allow) ∧
    (∀ (stdin : Option String) (run : Option String → Except String Exit),
      (∀ tp, ∃ e, run tp = Except.error e) →
        hookEntry stdin run = Exit.allow) := by
  constructor
  · intro e
    rfl
  · intro stdin run h
    cases stdin with
    | none =>
        obtain ⟨e, he⟩ := h none
        simp [hookEntry, he, catchWrap]
    | some tp =>
        obtain ⟨e, he⟩ := h (some tp)
        simp [hookEntry, he, catchWrap]

/-- Witness for the C10 theorem: a `main` that always throws still exits
with allow. -/
theorem fail_open_on_error_witness :
    hookEntry none (fun _ => Except.error "boom") = Exit.allow :=
  fail_open_on_error.2 none (fun _ => Except.error "boom")
    (fun _ => ⟨"boom", rfl⟩)

/-- Iterating the continue-loop write adds `k` to the iteration counter
and changes nothing else. -/
theorem continueUpdate_iterate (s : V4State) (k : Nat) :
    continueUpdate^[k] s = { s with iteration := s.iteration + k } := by
  induction k with
  | zero => simp
  | succ n ih =>
      rw [Function.iterate_succ_apply', ih]
      simp [continueUpdate]
      omega

/-- C2 (counterexample). The claim says the invocation after the ceiling
is reached returns allow, never block.  In `stop-hook-v2.js` the
iteration-limit branch prints the recovery options and then exits with
code 2: at `iteration = maxIterations = 3` the invocation blocks. -/
theorem v2_iteration_ceiling_blocks :
    mainV2 c2Input = V2Out.blockIterLimit 3 3 ∧
    exitOfV2 (mainV2 c2Input) = Exit.block ∧
    Exit.block ≠ Exit.allow := by
  refine ⟨by decide, by decide, by decide⟩

/-- C2 (amended). For the v4 stop hook the claim holds: starting at
iteration 0 with ceiling `C`, each of the first `C` invocations without a
completion signal blocks and increments the counter, and the `(C+1)`-th
invocation returns allow (`process.exit(0)` in the iteration-limit branch,
never block); its message surfaces the three recovery actions (abandon via
`FORCE_EXIT`, raise `maxIterations`, force-complete via `complete: true`).
The v2 hook instead blocks at the ceiling (see the counterexample). -/
theorem v4_iteration_ceiling_allows (C : Nat) (s0 : V4State) (now : Nat)
    (parse : String → Option ParsedMsg) (transcript : String)
    (hactive : s0.active = true) (hmode : s0.mode ≠ "external")
    (hcomplete : s0.complete = false) (hphase : s0.phase ≠ "COMPLETE")
    (hstale : isStaleV4 now s0 = false)
    (hiter : s0.iteration = 0)
    (hC : getMaxIterations s0 = C)
    (hnoP : ∀ p, checkPromiseInTranscript parse transcript p = false) :
    (∀ k, k < C →
      mainV4 now false parse transcript (some (continueUpdate^[k] s0)) =
        V4Out.blockLoop (continueUpdate^[k + 1] s0) (isQuickMode s0))
    ∧ mainV4 now false parse transcript (some (continueUpdate^[C] s0)) =
        V4Out.allowIterLimit C C
    ∧ exitOfV4 (V4Out.allowIterLimit C C) = Exit.allow
    ∧ (∃ hdr, v4LimitMessage "DEEP" ".deep" C C =
        hdr ++ v4RecoveryOptions ".deep")
    ∧ strContains (v4RecoveryOptions ".deep") "FORCE_EXIT" = true
    ∧ strContains (v4RecoveryOptions ".deep") "maxIterations" = true
    ∧ strContains (v4RecoveryOptions ".deep") "complete: true" = true := by
  have hit : ∀ k, continueUpdate^[k] s0 = { s0 with iteration := k } := by
    intro k
    rw [continueUpdate_iterate, hiter]
    simp
  have hdecide : ∀ k,
      mainV4 now false parse transcript (some { s0 with iteration := k }) =
        if k ≥ C then V4Out.allowIterLimit k C
        else V4Out.blockLoop (continueUpdate { s0 with iteration := k })
          (isQuickMode s0) := by
    intro k
    have hA : ¬ (({ s0 with iteration := k } : V4State).active = false) := by
      simp [hactive]
    have hE : ¬ (isExternalMode { s0 with iteration := k } = true) := by
      show ¬ (isExternalMode s0 = true)
      simp [isExternalMode, hmode]
    have hCmp : ¬ (({ s0 with iteration := k } : V4State).complete = true ∨
        ({ s0 with iteration := k } : V4State).phase = "COMPLETE") := by
      simp [hcomplete, hphase]
    have hS : ¬ (isStaleV4 now { s0 with iteration := k } = true) := by
      show ¬ (isStaleV4 now s0 = true)
      simp [hstale]
    have hQ : ¬ (isQuickMode { s0 with iteration := k } = true ∧
        checkPromiseInTranscript parse transcript "QUICK_COMPLETE" =
          true) := by
      simp [hnoP]
    simp only [mainV4, if_neg (by simp : ¬ (false = true))]
    rw [if_neg hA, if_neg hE,
      show getMaxIterations { s0 with iteration := k } = C from hC,
      if_neg hCmp, if_neg hS]
    by_cases hk : k ≥ C
    · rw [if_pos (show ({ s0 with iteration := k } : V4State).iteration ≥ C
        from hk), if_pos hk]
    · rw [if_neg (show ¬ (({ s0 with iteration := k } : V4State).iteration ≥
        C) from hk), if_neg hk, if_neg hQ,
        show ({ s0 with iteration := k } : V4State).phase = s0.phase from rfl]
      cases hpp : phasePromise s0.phase with
      | none => simp [hnoP, isQuickMode]
      | some pp => simp [hnoP, isQuickMode]
  refine ⟨?_, ?_, rfl, ⟨_, rfl⟩, by decide, by decide, by decide⟩
  · intro k hk
    rw [hit k, Function.iterate_succ_apply', hit k, hdecide k,
      if_neg (by omega)]
  · rw [hit C, hdecide C, if_pos (le_refl C)]

/-- Witness for the amended C2 theorem: ceiling 2, third invocation
allows. -/
theorem v4_iteration_ceiling_allows_witness :
    mainV4 0 false parseNone "" (some (continueUpdate^[2] c2V4State)) =
      V4Out.allowIterLimit 2 2 := by
  have h := v4_iteration_ceiling_allows 2 c2V4State 0 parseNone ""
    rfl (by decide) rfl (by decide) (by decide) rfl (by decide)
    (fun _ => rfl)
  exact h.2.1

/-- C6 (counterexample). The claim says every state the orchestrator
writes satisfies `complete = true → phase = COMPLETE`.  The v4 quick-mode
completion branch writes `complete = true` while leaving the phase
untouched: on detecting `QUICK_COMPLETE` in phase `PLAN` the hook persists
a state with `complete = true` and `phase = "PLAN"`. -/
theorem quick_complete_leaves_phase :
    mainV4 0 false quickParse qLine (some c6State) =
      V4Out.allowQuickDone (quickCompleteUpdate c6State) ∧
    (quickCompleteUpdate c6State).complete = true ∧
    (quickCompleteUpdate c6State).phase = "PLAN" ∧
    "PLAN" ≠ "COMPLETE" := by
  refine ⟨by decide, by decide, by decide, by decide⟩

/-- C6 (amended). The deep-mode completion writes (`DEEP_COMPLETE`
detection, also in external mode) set `phase = COMPLETE` together with
`complete = true`, so those records satisfy the invariant and `COMPLETE`
is a declared phase value; the quick-mode completion write sets
`complete = true` while leaving the phase unchanged (and the v2 SHIP
prompt instructs `"phase": "SHIP", "complete": true`), so the invariant
does not hold for every written record. -/
theorem deep_complete_sets_phase :
    (∀ s : V4State,
      (deepCompleteUpdate s).complete = true ∧
      (deepCompleteUpdate s).phase = "COMPLETE" ∧
      (deepCompleteUpdate s).phase ∈ phaseEnumV4 ∧
      (quickCompleteUpdate s).complete = true ∧
      (quickCompleteUpdate s).phase = s.phase)
    ∧ (∀ (now : Nat) (fe : Bool) (parse : String → Option ParsedMsg)
        (transcript : String) (st : Option V4State) (wr : V4State),
        mainV4 now fe parse transcript st = V4Out.allowDeepDone wr →
          wr.complete = true ∧ wr.phase = "COMPLETE")
    ∧ (∀ (now : Nat) (fe : Bool) (parse : String → Option ParsedMsg)
        (transcript : String) (st : Option V4State) (wr : V4State),
        mainV4 now fe parse transcript st =
            V4Out.allowExternal (some wr) →
          wr.complete = true ∧ wr.phase = "COMPLETE") := by
  refine ⟨?_, ?_, ?_⟩
  · intro s
    refine ⟨rfl, rfl, by simp [deepCompleteUpdate, phaseEnumV4], rfl, rfl⟩
  · intro now fe parse transcript st wr h
    simp only [mainV4] at h
    split at h
    · simp at h
    · split at h
      · simp at h
      · split at h
        · simp at h
        · split at h
          · split at h <;> simp at h
          · split at h
            · simp at h
            · split at h
              · simp at h
              · split at h
                · simp at h
                · split at h
                  · simp at h
                  · split at h
                    · split at h
                      · simp at h
                      · split at h
                        · simp only [V4Out.allowDeepDone.injEq] at h
                          subst h
                          exact ⟨rfl, rfl⟩
                        · simp at h
                    · split at h
                      · simp only [V4Out.allowDeepDone.injEq] at h
                        subst h
                        exact ⟨rfl, rfl⟩
                      · simp at h
  · intro now fe parse transcript st wr h
    simp only [mainV4] at h
    split at h
    · simp at h
    · split at h
      · simp at h
      · split at h
        · simp at h
        · split at h
          · split at h
            · simp only [V4Out.allowExternal.injEq, Option.some.injEq] at h
              subst h
              exact ⟨rfl, rfl⟩
            · simp at h
          · split at h
            · simp at h
            · split at h
              · simp at h
              · split at h
                · simp at h
                · split at h
                  · simp at h
                  · split at h
                    · split at h
                      · simp at h
                      · split at h <;> simp at h
                    · split at h <;> simp at h

/-- Witness for the amended C6 theorem: a deep-mode session whose
transcript carries `DEEP_COMPLETE` gets a state write with
`complete = true` and `phase = COMPLETE`. -/
theorem deep_complete_sets_phase_witness :
    mainV4 0 false deepParse qLine (some c6DeepState) =
      V4Out.allowDeepDone (deepCompleteUpdate c6DeepState) ∧
    (deepCompleteUpdate c6DeepState).complete = true ∧
    (deepCompleteUpdate c6DeepState).phase = "COMPLETE" := by
  have hmain : mainV4 0 false deepParse qLine (some c6DeepState) =
      V4Out.allowDeepDone (deepCompleteUpdate c6DeepState) := by decide
  have h := deep_complete_sets_phase.2.1 0 false deepParse qLine
    (some c6DeepState) (deepCompleteUpdate c6DeepState) hmain
  exact ⟨hmain, h.1, h.2⟩

/-- C5. `checkPromiseInTranscript(log, sentinel)` returns true iff the
wrapped sentinel `<promise>...</promise>` occurs — structurally, in the
joined `text` content parts of a parsed entry, not as a substring of the
raw log — in one of the most recent 10 assistant-marked lines contained in
the trailing 50 KB of the log.  Consequently a sentinel occurring only
earlier in the log is not seen, and a line in the window that fails to
parse is skipped individually without aborting the scan (the other
recent lines still decide the result).  The window itself holds at most
10 lines, each carrying the worker marker and drawn from the tail. -/
theorem completion_signal_detector_iff
    (parse : String → Option ParsedMsg) (log p : String) :
    (checkPromiseInTranscript parse log p = true ↔
      ∃ l ∈ recentAssistantLines log, ∃ m, parse l = some m ∧
        strContains (textJoined m) (promiseTag p) = true)
    ∧ (recentAssistantLines log).length ≤ 10
    ∧ (∀ l ∈ recentAssistantLines log,
        strContains l assistantMarker = true ∧
          l ∈ splitLines (readTranscriptTail log)) := by
  refine ⟨?_, ?_, ?_⟩
  · unfold checkPromiseInTranscript
    by_cases hc : readTranscriptTail log = ""
    · rw [if_pos hc]
      have hempty : recentAssistantLines log = [] := by
        simp [recentAssistantLines, hc, splitLines, splitChar]
      simp [hempty]
    · rw [if_neg hc, List.any_eq_true]
      refine exists_congr fun l => and_congr_right fun _ => ?_
      unfold lineHasPromise
      cases hm : parse l with
      | none => simp
      | some m => simp
  · simp only [recentAssistantLines]
    rw [List.length_drop]
    omega
  · intro l hl
    simp only [recentAssistantLines] at hl
    have hl2 := List.mem_of_mem_drop hl
    rw [List.mem_filter] at hl2
    obtain ⟨hl3, hmarker⟩ := hl2
    rw [List.mem_filter] at hl3
    exact ⟨hmarker, hl3.1⟩

/-- Releasing a task's claim removes every claim bearing its id. -/
theorem releaseClaims_not_mem (claims : List ClaimRec) (tid : String) :
    ∀ c ∈ releaseClaims claims tid, c.taskId ≠ tid := by
  intro c hc
  rw [releaseClaims, List.mem_filter] at hc
  simpa using hc.2

/-- After a release, the claims table has no claim for the task. -/
theorem claimFor_releaseClaims (claims : List ClaimRec) (tid : String) :
    claimFor (releaseClaims claims tid) tid = none := by
  rw [claimFor, List.find?_eq_none]
  intro c hc
  simpa using releaseClaims_not_mem claims tid c hc

/-- A selected task is eligible and comes from the task list. -/
theorem selectNext_eligible (now : Nat) (claims : List ClaimRec)
    (tasks : List QTask) (t : QTask)
    (h : selectNext now claims tasks = some t) :
    eligibleTask now claims t = true ∧ t ∈ tasks := by
  rw [selectNext] at h
  refine ⟨List.find?_some h, ?_⟩
  have hm := List.mem_of_find?_eq_some h
  simp only [List.mem_append, List.mem_filter] at hm
  rcases hm with (⟨h1, _⟩ | ⟨h1, _⟩) | ⟨h1, _⟩ <;> exact h1

/-- An eligible task is below the attempt cap and not git-blocked. -/
theorem eligibleTask_props (now : Nat) (claims : List ClaimRec) (t : QTask)
    (h : eligibleTask now claims t = true) :
    t.attempts < 3 ∧ t.status = TStatus.pending := by
  rw [eligibleTask] at h
  simp only [Bool.and_eq_true, decide_eq_true_eq, beq_iff_eq] at h
  exact ⟨h.1.1, h.1.2⟩

/-- C4. When the SHIP push loop reports unresolved rebase conflicts, the
pipeline records a Conflict Record carrying the conflicting files, the
local and remote revisions, and a pointer at the newly created
`deep-recovery/{task}-{session}` Recovery Branch; it releases the item's
claim, leaves the attempt count unchanged (the conflict is not a counted
failure and the item does not move to the ledger), and processing moves on:
every other item is untouched and still selectable, while the blocked item
is never selected again until its status changes. -/
theorem conflict_quarantine_preserves_attempts
    (q : QState) (t : QTask) (session : String) (now : Nat)
    (localC remoteC sha : String) (g : Nat → PushAttempt)
    (files : List String)
    (hpush : pushLoop g = PushOutcome.gitConflict files)
    (hmem : t ∈ q.tasks)
    (hattempts : ∀ u ∈ q.tasks, u.id = t.id → u.attempts = t.attempts) :
    (∃ r ∈ (handleShip q t session now localC remoteC sha g).conflicts,
      r.taskId = t.id ∧
      r.recoveryBranch = "deep-recovery/" ++ t.id ++ "-" ++ session ∧
      r.conflictingFiles = files ∧ r.session = session ∧
      r.localCommit = localC ∧ r.remoteCommit = remoteC)
    ∧ (∀ c ∈ (handleShip q t session now localC remoteC sha g).claims,
        c.taskId ≠ t.id)
    ∧ (∀ u ∈ (handleShip q t session now localC remoteC sha g).tasks,
        u.id = t.id →
          u.attempts = t.attempts ∧ u.status = TStatus.gitBlocked)
    ∧ (∃ u ∈ (handleShip q t session now localC remoteC sha g).tasks,
        u.id = t.id)
    ∧ (handleShip q t session now localC remoteC sha g).ledger = q.ledger
    ∧ (∀ u ∈ q.tasks, u.id ≠ t.id →
        u ∈ (handleShip q t session now localC remoteC sha g).tasks)
    ∧ (∀ (now2 : Nat) (u : QTask),
        selectNext now2
          (handleShip q t session now localC remoteC sha g).claims
          (handleShip q t session now localC remoteC sha g).tasks =
            some u →
        u.id ≠ t.id) := by
  have hship : handleShip q t session now localC remoteC sha g =
      onGitBlocked q t session now files localC remoteC := by
    rw [handleShip, hpush]
  rw [hship]
  refine ⟨?_, ?_, ?_, ?_, rfl, ?_, ?_⟩
  · refine ⟨⟨t.id, now, session, files, localC, remoteC,
      "deep-recovery/" ++ t.id ++ "-" ++ session⟩, ?_, rfl, rfl, rfl, rfl,
      rfl, rfl⟩
    simp [onGitBlocked]
  · intro c hc
    exact releaseClaims_not_mem q.claims t.id c hc
  · intro u hu huid
    simp only [onGitBlocked, List.mem_map] at hu
    obtain ⟨v, hv, hvu⟩ := hu
    by_cases hid : v.id = t.id
    · rw [if_pos hid] at hvu
      subst hvu
      exact ⟨hattempts v hv hid, rfl⟩
    · rw [if_neg hid] at hvu
      subst hvu
      exact absurd huid hid
  · refine ⟨{ t with status := TStatus.gitBlocked }, ?_, rfl⟩
    simp only [onGitBlocked, List.mem_map]
    exact ⟨t, hmem, by rw [if_pos rfl]⟩
  · intro u hu huid
    simp only [onGitBlocked, List.mem_map]
    exact ⟨u, hu, by rw [if_neg huid]⟩
  · intro now2 u hsel huid
    obtain ⟨helig, hmem2⟩ := selectNext_eligible now2 _ _ u hsel
    have hprops := eligibleTask_props now2 _ u helig
    simp only [onGitBlocked, List.mem_map] at hmem2
    obtain ⟨v, hv, hvu⟩ := hmem2
    by_cases hid : v.id = t.id
    · rw [if_pos hid] at hvu
      subst hvu
      exact absurd hprops.2 (by simp)
    · rw [if_neg hid] at hvu
      subst hvu
      exact hid huid

/-- C7. A failure below the cap increments the attempt count, drops the
claim, and leaves the item selectable; once the attempt count reaches 3
the item is appended to the completed/failed ledger as skipped and removed
from the queue, and the selection function never returns a task at 3 or
more attempts, so no fourth automatic attempt occurs. -/
theorem attempt_cap_three_skips :
    (∀ (now : Nat) (claims : List ClaimRec) (tasks : List QTask)
      (t : QTask),
      selectNext now claims tasks = some t →
        t.attempts < 3 ∧ t.status = TStatus.pending)
    ∧ (∀ (q : QState) (t : QTask), t.attempts = 2 →
        ((onFailure q t).ledger = q.ledger ++ [⟨t.id, LStatus.skipped⟩]
        ∧ (∀ u ∈ (onFailure q t).tasks, u.id ≠ t.id)
        ∧ (∀ c ∈ (onFailure q t).claims, c.taskId ≠ t.id)
        ∧ (∀ (now2 : Nat) (u : QTask),
            selectNext now2 (onFailure q t).claims (onFailure q t).tasks =
              some u → u.id ≠ t.id)))
    ∧ (∀ (q : QState) (t : QTask), t ∈ q.tasks → t.attempts < 2 →
        t.status = TStatus.pending →
        ∃ u ∈ (onFailure q t).tasks, u.id = t.id ∧
          u.attempts = t.attempts + 1 ∧
          (∀ now3 : Nat,
            eligibleTask now3 (onFailure q t).claims u = true)) := by
  refine ⟨?_, ?_, ?_⟩
  · intro now claims tasks t h
    exact eligibleTask_props now claims t (selectNext_eligible _ _ _ _ h).1
  · intro q t ha
    have hcap : t.attempts + 1 ≥ 3 := by omega
    rw [onFailure, if_pos hcap]
    refine ⟨rfl, ?_, ?_, ?_⟩
    · intro u hu
      rw [List.mem_filter] at hu
      simpa using hu.2
    · intro c hc
      exact releaseClaims_not_mem q.claims t.id c hc
    · intro now2 u hsel
      have hmem2 := (selectNext_eligible now2 _ _ u hsel).2
      rw [List.mem_filter] at hmem2
      simpa using hmem2.2
  · intro q t hmem hlt hpend
    have hcap : ¬ (t.attempts + 1 ≥ 3) := by omega
    rw [onFailure, if_neg hcap]
    refine ⟨{ t with attempts := t.attempts + 1 }, ?_, rfl, rfl, ?_⟩
    · simp only [List.mem_map]
      exact ⟨t, hmem, by rw [if_pos rfl]⟩
    · intro now3
      rw [eligibleTask]
      have hclaim : claimFor (releaseClaims q.claims t.id)
          ({ t with attempts := t.attempts + 1 } : QTask).id = none :=
        claimFor_releaseClaims q.claims t.id
      rw [hclaim]
      simp [hpend]
      omega

/-- Witness for the C4 theorem: a conflicting push of claimed `task-005`
from session `abc12345` produces the expected Conflict Record. -/
theorem conflict_quarantine_preserves_attempts_witness :
    ∃ r ∈ (handleShip c4Queue c4Task "abc12345" 99 "def789" "123abc"
        "sha1" c4Push).conflicts,
      r.taskId = "task-005" ∧
      r.recoveryBranch = "deep-recovery/task-005-abc12345" ∧
      r.conflictingFiles = ["src/utils/helpers.ts"] := by
  have h := conflict_quarantine_preserves_attempts c4Queue c4Task
    "abc12345" 99 "def789" "123abc" "sha1" c4Push
    ["src/utils/helpers.ts"] (by decide) (by decide) (by decide)
  obtain ⟨r, hr, h1, h2, h3, _⟩ := h.1
  refine ⟨r, hr, h1, ?_, h3⟩
  rw [h2]
  decide

/-- Witness for the C7 theorem: a third failure of `task-004` skips it,
a first failure of `task-009` leaves it selectable at one attempt. -/
theorem attempt_cap_three_skips_witness :
    (onFailure c7Queue c7Task).ledger =
      [⟨"task-004", LStatus.skipped⟩] ∧
    (∀ u ∈ (onFailure c7Queue c7Task).tasks, u.id ≠ "task-004") ∧
    (∃ u ∈ (onFailure c7Queue2 c7Task2).tasks, u.id = "task-009" ∧
      u.attempts = 1 ∧
      (∀ now3 : Nat,
        eligibleTask now3 (onFailure c7Queue2 c7Task2).claims u =
          true)) := by
  have h2 := attempt_cap_three_skips.2.1 c7Queue c7Task (by decide)
  have h3 := attempt_cap_three_skips.2.2 c7Queue2 c7Task2 (by decide)
    (by decide) (by decide)
  refine ⟨?_, ?_, ?_⟩
  · rw [h2.1]
    decide
  · intro u hu
    exact h2.2.1 u hu
  · obtain ⟨u, hu, hid, hatt, helig⟩ := h3
    exact ⟨u, hu, hid, hatt, helig⟩

/-- An inconclusive run of the polling loop times out. -/
theorem waitGoR_inconclusive (polls : Nat → PollResult) :
    ∀ (r k : Nat),
      (∀ j, k ≤ j → j < k + r → ciInconclusive (polls j) = true) →
      waitGoR polls k r = ⟨false, true, false, none, []⟩ := by
  intro r
  induction r with
  | zero => intro k _; rfl
  | succ n ih =>
      intro k h
      have hk := h k (le_refl k) (by omega)
      cases hp : polls k with
      | err m =>
          rw [hp] at hk
          simp [ciInconclusive] at hk
      | ok checks =>
          rw [hp] at hk
          simp only [ciInconclusive, Bool.and_eq_true,
            Bool.not_eq_true'] at hk
          obtain ⟨⟨h1, h2⟩, h3⟩ := hk
          simp only [waitGoR, hp, h1, h2, h3]
          simp only [Bool.false_eq_true, if_false, Bool.true_eq_false]
          exact ih (k + 1) fun j hj1 hj2 => h j (by omega) (by omega)

/-- The polling loop only consults the oracle below the poll budget. -/
theorem waitGoR_congr (polls polls2 : Nat → PollResult) :
    ∀ (r k : Nat), (∀ j, k ≤ j → j < k + r → polls j = polls2 j) →
      waitGoR polls k r = waitGoR polls2 k r := by
  intro r
  induction r with
  | zero => intro k _; rfl
  | succ n ih =>
      intro k h
      have hk := h k (le_refl k) (by omega)
      cases hp : polls k with
      | err m =>
          have hk2 : polls2 k = PollResult.err m := by rw [← hk, hp]
          simp [waitGoR, hp, hk2]
      | ok checks =>
          have hk2 : polls2 k = PollResult.ok checks := by rw [← hk, hp]
          simp only [waitGoR, hp, hk2]
          split
          · rfl
          · split
            · rfl
            · split
              · rfl
              · exact ih (k + 1) fun j hj1 hj2 => h j (by omega) (by omega)

/-- C9. The CI-status poll always terminates: the 15-second interval and
the 10-minute cap admit exactly `pollBudget = 40` polls, the loop's result
depends only on those first 40 polls (it never waits past the cap), and if
no poll is conclusive within the budget it stops and reports
`{ passed: false, timeout: true }` — the check is treated as failed rather
than waited on further. -/
theorem ci_poll_bounded_timeout :
    CI_POLL_INTERVAL_MS = 15000
    ∧ CI_MAX_WAIT_MS = 600000
    ∧ pollBudget * CI_POLL_INTERVAL_MS = CI_MAX_WAIT_MS
    ∧ (∀ polls : Nat → PollResult,
        (∀ k, k < pollBudget → ciInconclusive (polls k) = true) →
        waitForCI polls = ⟨false, true, false, none, []⟩)
    ∧ (∀ polls polls2 : Nat → PollResult,
        (∀ k, k < pollBudget → polls k = polls2 k) →
        waitForCI polls = waitForCI polls2) := by
  refine ⟨rfl, rfl, by decide, ?_, ?_⟩
  · intro polls h
    exact waitGoR_inconclusive polls pollBudget 0
      (fun j _ h2 => h j (by omega))
  · intro polls polls2 h
    exact waitGoR_congr polls polls2 pollBudget 0
      (fun j _ h2 => h j (by omega))

/-- Witness for the C9 theorem: a permanently pending check makes the
poll report a timeout failure. -/
theorem ci_poll_bounded_timeout_witness :
    waitForCI c9Polls = ⟨false, true, false, none, []⟩ :=
  ci_poll_bounded_timeout.2.2.2.1 c9Polls (fun _ _ => rfl)

/-- Membership in the `missing` entries a category contributes. -/
theorem mem_catCheck_fst (name s : String) (c : Option CatResult) :
    s ∈ (catCheck name c).1 ↔
      (c = none ∧ s = name ++ ": no results") ∨
      (∃ r, c = some r ∧ r.ran = false ∧ s = name ++ ": not run") := by
  cases c with
  | none => simp [catCheck]
  | some r =>
      rcases r with ⟨ran, passed⟩
      cases ran <;> cases passed <;> simp [catCheck]

/-- Membership in the `failed` entries a category contributes. -/
theorem mem_catCheck_snd (name s : String) (c : Option CatResult) :
    s ∈ (catCheck name c).2 ↔
      ∃ r, c = some r ∧ r.ran = true ∧ r.passed = false ∧
        s = name ++ ": failed" := by
  cases c with
  | none => simp [catCheck]
  | some r =>
      rcases r with ⟨ran, passed⟩
      cases ran <;> cases passed <;> simp [catCheck]

/-- The persistent-tasks tail of the v2 hook never writes a state. -/
theorem v2Tail_written (inp : V2Input) :
    writtenStateV2 (v2Tail inp) = none := by
  unfold v2Tail
  split
  · rfl
  · dsimp only
    split <;> rfl

/-- The four possible shapes of the v2 completion-verification result. -/
theorem v2Verify_cases (inp : V2Input) (s : DState) :
    v2Verify inp s = V2Out.blockTestVerif
        { s with phase := "REVIEW", complete := false }
        (verifyTestResults inp.testResults).missing
        (verifyTestResults inp.testResults).failed
    ∨ v2Verify inp s = V2Out.blockCIFailed
        { s with phase := "FIX", complete := false }
    ∨ (∃ m f, v2Verify inp s = V2Out.blockGitVerif
        { s with phase := "REVIEW", complete := false } m f)
    ∨ v2Verify inp s = v2Tail inp := by
  unfold v2Verify
  dsimp only
  split
  · exact Or.inl rfl
  · split
    · split
      · split
        · split
          · exact Or.inr (Or.inl rfl)
          · split
            · exact Or.inr (Or.inr (Or.inl ⟨_, _, rfl⟩))
            · exact Or.inr (Or.inr (Or.inr rfl))
        · exact Or.inr (Or.inr (Or.inl ⟨_, _, rfl⟩))
      · exact Or.inr (Or.inr (Or.inl ⟨_, _, rfl⟩))
    · exact Or.inr (Or.inr (Or.inr rfl))

/-- Every state written by the v2 completion verification clears the
complete flag, leaves the terminal phase, moves to `REVIEW` or `FIX`, and
the invocation blocks. -/
theorem v2Verify_written (inp : V2Input) (s : DState) (st' : DState)
    (h : writtenStateV2 (v2Verify inp s) = some st') :
    st'.complete = false ∧ st'.phase ≠ "COMPLETE" ∧
    (st'.phase = "REVIEW" ∨ st'.phase = "FIX") ∧
    exitOfV2 (v2Verify inp s) = Exit.block := by
  rcases v2Verify_cases inp s with hc | hc | ⟨m, f, hc⟩ | hc
  · rw [hc] at h ⊢
    simp only [writtenStateV2, Option.some.injEq] at h
    subst h
    exact ⟨rfl, by simp, Or.inl rfl, rfl⟩
  · rw [hc] at h ⊢
    simp only [writtenStateV2, Option.some.injEq] at h
    subst h
    exact ⟨rfl, by simp, Or.inr rfl, rfl⟩
  · rw [hc] at h ⊢
    simp only [writtenStateV2, Option.some.injEq] at h
    subst h
    exact ⟨rfl, by simp, Or.inl rfl, rfl⟩
  · rw [hc] at h
    rw [v2Tail_written] at h
    exact absurd h (by simp)

/-- Membership in the final `failed` list of `verifyTestResults`, for
entries other than the synthetic `allPassed is false` one. -/
theorem mem_verify_failed (tr : TestResults) (s : String)
    (hne : s ≠ "allPassed is false") :
    s ∈ (verifyTestResults (some tr)).failed ↔
      s ∈ (catCheck "tests" tr.tests).2 ∨
      s ∈ (catCheck "types" tr.types).2 ∨
      s ∈ (catCheck "lint" tr.lint).2 ∨
      s ∈ (catCheck "build" tr.build).2 := by
  unfold verifyTestResults
  dsimp only
  split
  · rename_i hcond
    obtain ⟨hap, hm0, hf0⟩ := hcond
    simp only [List.append_eq_nil] at hf0
    obtain ⟨⟨⟨e1, e2⟩, e3⟩, e4⟩ := hf0
    constructor
    · intro hmem
      rw [List.mem_singleton] at hmem
      exact absurd hmem hne
    · intro hmem
      rcases hmem with h | h | h | h
      · rw [e1] at h
        simp at h
      · rw [e2] at h
        simp at h
      · rw [e3] at h
        simp at h
      · rw [e4] at h
        simp at h
  · simp [List.mem_append, or_assoc]

/-- C3 (counterexample). The claim says any missing or failing evidence
category forces the session back to phase `REVIEW`.  In `stop-hook-v2.js`
the active-CI-polling path sets `state.phase = 'FIX'` instead: a session
claiming completion, with clean test evidence and a created PR whose
polled CI reports a failed check, is written back with phase `FIX`. -/
theorem ci_poll_failure_forces_fix :
    mainV2 c3Input = V2Out.blockCIFailed ⟨"FIX", 5, 10, false⟩ ∧
    writtenStateV2 (mainV2 c3Input) = some ⟨"FIX", 5, 10, false⟩ ∧
    ("FIX" : String) ≠ "REVIEW" := by
  refine ⟨by decide, by decide, by decide⟩

/-- C3 (amended). Whenever a session claiming completion reaches the v2
verification gate and it finds missing or failing evidence, every state
it writes back clears the complete flag, never stays terminal, and moves
backward — to `REVIEW`, except that a CI failure discovered by active
polling moves to `FIX` — with the invocation blocking.  When the test
evidence fails verification the hook reports exactly the
`verifyTestResults` missing and failing lists, and those lists
characterise the evidence precisely: a category is reported failing iff
it ran and did not pass, and reported `no results` iff its record is
absent. -/
theorem verification_gate_clears_complete
    (inp : V2Input) (s : DState)
    (hfe : inp.forceExit = false) (hfc : inp.forceComplete = false)
    (hra : inp.ralphHandoff = false) (hes : inp.escalationFile = false)
    (hrlm : inp.rlmBlocked = false)
    (hst : inp.stateFile = some s)
    (hclaims : ¬ (s.complete = false ∧ s.phase ≠ "COMPLETE" ∧
      s.phase ≠ "SHIP")) :
    (∀ st', writtenStateV2 (mainV2 inp) = some st' →
      st'.complete = false ∧ st'.phase ≠ "COMPLETE" ∧
      (st'.phase = "REVIEW" ∨ st'.phase = "FIX") ∧
      exitOfV2 (mainV2 inp) = Exit.block)
    ∧ ((verifyTestResults inp.testResults).valid = false →
        mainV2 inp = V2Out.blockTestVerif
          { s with phase := "REVIEW", complete := false }
          (verifyTestResults inp.testResults).missing
          (verifyTestResults inp.testResults).failed)
    ∧ (∀ tr : TestResults,
        ("tests: failed" ∈ (verifyTestResults (some tr)).failed ↔
          ∃ r, tr.tests = some r ∧ r.ran = true ∧ r.passed = false)
        ∧ ("types: failed" ∈ (verifyTestResults (some tr)).failed ↔
          ∃ r, tr.types = some r ∧ r.ran = true ∧ r.passed = false)
        ∧ ("lint: failed" ∈ (verifyTestResults (some tr)).failed ↔
          ∃ r, tr.lint = some r ∧ r.ran = true ∧ r.passed = false)
        ∧ ("build: failed" ∈ (verifyTestResults (some tr)).failed ↔
          ∃ r, tr.build = some r ∧ r.ran = true ∧ r.passed = false)
        ∧ ("tests: no results" ∈ (verifyTestResults (some tr)).missing ↔
          tr.tests = none)
        ∧ ("types: no results" ∈ (verifyTestResults (some tr)).missing ↔
          tr.types = none)
        ∧ ("lint: no results" ∈ (verifyTestResults (some tr)).missing ↔
          tr.lint = none)
        ∧ ("build: no results" ∈ (verifyTestResults (some tr)).missing ↔
          tr.build = none)) := by
  have hmain : mainV2 inp = v2Verify inp s := by
    simp [mainV2, hfe, hfc, hra, hes, hrlm, hst, hclaims]
  refine ⟨?_, ?_, ?_⟩
  · intro st' h
    rw [hmain] at h ⊢
    exact v2Verify_written inp s st' h
  · intro hv
    rw [hmain]
    unfold v2Verify
    dsimp only
    rw [if_pos hv]
  · intro tr
    have hmisstr : (verifyTestResults (some tr)).missing =
        (catCheck "tests" tr.tests).1 ++ (catCheck "types" tr.types).1 ++
          (catCheck "lint" tr.lint).1 ++ (catCheck "build" tr.build).1 :=
      rfl
    refine ⟨?_, ?_, ?_, ?_, ?_, ?_, ?_, ?_⟩
    · rw [mem_verify_failed tr _ (by decide)]
      simp [mem_catCheck_snd]
    · rw [mem_verify_failed tr _ (by decide)]
      simp [mem_catCheck_snd]
    · rw [mem_verify_failed tr _ (by decide)]
      simp [mem_catCheck_snd]
    · rw [mem_verify_failed tr _ (by decide)]
      simp [mem_catCheck_snd]
    · rw [hmisstr]
      simp [List.mem_append, mem_catCheck_fst]
    · rw [hmisstr]
      simp [List.mem_append, mem_catCheck_fst]
    · rw [hmisstr]
      simp [List.mem_append, mem_catCheck_fst]
    · rw [hmisstr]
      simp [List.mem_append, mem_catCheck_fst]

/-- Witness for the amended C3 theorem: a session claiming completion
with no `test-results.json` is forced back to `REVIEW` with the complete
flag cleared and the missing evidence reported. -/
theorem verification_gate_clears_complete_witness :
    mainV2 c3wInput = V2Out.blockTestVerif ⟨"REVIEW", 1, 5, false⟩
      ["test-results.json not found"] [] := by
  have h := verification_gate_clears_complete c3wInput c3wState rfl rfl
    rfl rfl rfl rfl (by decide)
  have h2 := h.2.1 (by decide)
  rw [h2]
  decide

/-- Witness for the C5 theorem: a one-line transcript whose assistant
entry parses to a text part holding the sentinel is detected, and the
window is within its bound. -/
theorem completion_signal_detector_iff_witness :
    checkPromiseInTranscript quickParse qLine "QUICK_COMPLETE" = true ∧
    (recentAssistantLines qLine).length ≤ 10 := by
  have h := completion_signal_detector_iff quickParse qLine
    "QUICK_COMPLETE"
  refine ⟨?_, h.2.1⟩
  rw [h.1]
  exact ⟨qLine, by decide,
    ⟨⟨[⟨"text", "<promise>QUICK_COMPLETE</promise>"⟩]⟩, by decide,
      by decide⟩⟩
